import Mathlib

/-!
Verification of the NEAR marketplace submission action
(`src/index.js`): manifest readers, metadata resolution, payload
building, validation, and the create-or-update registry client.

The JavaScript source is shallowly embedded: the filesystem is a record
of the three manifest files the readers probe, the best-effort regex
extraction over TOML text is implemented character-by-character with the
same semantics as the JS regexes, JS string truthiness (`x || y`) is made
explicit, and the HTTPS layer is modelled by its parsed request/response
data.
-/

namespace NearAction

/-! ## Character-level helpers mirroring the JS regex and string ops -/

/-- JS `\s` whitespace class restricted to the ASCII characters relevant
here (space, tab, newline, carriage return, vertical tab, form feed). -/
def isWsChar (c : Char) : Bool :=
  c = ' ' || c = '\t' || c = '\n' || c = '\r' || c = '\x0b' || c = '\x0c'

/-- Does `needle` occur at the start of `hay`? -/
def startsWithL : List Char → List Char → Bool
  | [], _ => true
  | _ :: _, [] => false
  | a :: as, b :: bs => a = b && startsWithL as bs

/-- Does `needle` occur anywhere in `hay`? -/
def occursIn (needle : List Char) : List Char → Bool
  | [] => startsWithL needle []
  | c :: rest => startsWithL needle (c :: rest) || occursIn needle rest

/-- Substring test on strings (used to state facts about error messages). -/
def containsSubStr (needle hay : String) : Bool :=
  occursIn needle.data hay.data

/-- Drop leading JS whitespace. -/
def dropWs (s : List Char) : List Char := s.dropWhile isWsChar

/-- After a key has been consumed, match the JS regex tail
`\s*=\s*"([^"]+)"` and return the capture. -/
def matchAssign (s : List Char) : Option (List Char) :=
  match dropWs s with
  | '=' :: rest =>
    match dropWs rest with
    | '"' :: rest2 =>
      let cap := rest2.takeWhile (fun c => c ≠ '"')
      if cap = [] then none
      else if rest2.drop cap.length = [] then none
      else some cap
    | _ => none
  | _ => none

/-- After a key has been consumed, match the JS regex tail
`\s*=\s*\[([^\]]+)\]` and return the capture. -/
def matchBracketAssign (s : List Char) : Option (List Char) :=
  match dropWs s with
  | '=' :: rest =>
    match dropWs rest with
    | '[' :: rest2 =>
      let cap := rest2.takeWhile (fun c => c ≠ ']')
      if cap = [] then none
      else if rest2.drop cap.length = [] then none
      else some cap
    | _ => none
  | _ => none

/-- After a key has been consumed, match the JS regex tail
`\s*=\s*\[(.*?)\]` (dot-all, lazy) and return the capture, which may be
empty. -/
def matchBracketLazy (s : List Char) : Option (List Char) :=
  match dropWs s with
  | '=' :: rest =>
    match dropWs rest with
    | '[' :: rest2 =>
      let cap := rest2.takeWhile (fun c => c ≠ ']')
      if rest2.drop cap.length = [] then none
      else some cap
    | _ => none
  | _ => none

/-- Leftmost-match scan: try the literal `key` followed by `matcher` at
every position of the subject, as `String.prototype.match` does for a
regex beginning with a literal key. -/
def scanFor (key : List Char) (matcher : List Char → Option (List Char)) :
    List Char → Option (List Char)
  | [] => if startsWithL key [] then matcher (List.drop key.length []) else none
  | c :: rest =>
    match (if startsWithL key (c :: rest) then matcher (List.drop key.length (c :: rest)) else none) with
    | some cap => some cap
    | none => scanFor key matcher rest

/-- JS `` toml.match(new RegExp(`${key}\s*=\s*"([^"]+)"`)) `` returning the
first capture, or `undefined`. -/
def extract (key toml : String) : Option String :=
  (scanFor key.data matchAssign toml.data).map (fun l => ⟨l⟩)

/-- JS `String.prototype.trim` (ASCII whitespace). -/
def jsTrim (s : String) : String :=
  ⟨((s.data.dropWhile isWsChar).reverse.dropWhile isWsChar).reverse⟩

/-- JS `String.prototype.split(',')`. -/
def splitCommaL : List Char → List (List Char)
  | [] => [[]]
  | c :: rest =>
    if c = ',' then [] :: splitCommaL rest
    else
      match splitCommaL rest with
      | s :: ss => (c :: s) :: ss
      | [] => [[c]]

/-- String-level comma split. -/
def jsSplitComma (s : String) : List String :=
  (splitCommaL s.data).map (fun l => ⟨l⟩)

/-- JS `k.replace(/^"|"$/g, '')`: strip one leading and one trailing
double quote. -/
def stripEdgeQuotes (s : String) : String :=
  let l1 := match s.data with
    | '"' :: rest => rest
    | other => other
  let l2 := match l1.getLast? with
    | some '"' => l1.dropLast
    | _ => l1
  ⟨l2⟩

/-- JS `k.replace(/"/g, '')`: remove every double quote. -/
def removeQuotes (s : String) : String :=
  ⟨s.data.filter (fun c => c ≠ '"')⟩

/-- JS `` toml.match(new RegExp(`${key}\s*=\s*\[([^\]]+)\]`)) `` followed by
`m[1].split(',').map(k => k.trim().replace(/^"|"$/g, '')).filter(Boolean)`,
and `[]` when there is no match. -/
def extractList (key toml : String) : List String :=
  match scanFor key.data matchBracketAssign toml.data with
  | none => []
  | some cap =>
    (((String.mk cap |> jsSplitComma).map (fun k => stripEdgeQuotes (jsTrim k))).filter
      (fun k => k ≠ ""))

/-- JS `str.replace(needle, '')` for a plain-string needle: remove the
first occurrence only. -/
def removeFirstL (needle : List Char) : List Char → List Char
  | [] => []
  | c :: rest =>
    if startsWithL needle (c :: rest) then List.drop needle.length (c :: rest)
    else c :: removeFirstL needle rest

/-- JS `github.context.ref.replace('refs/tags/', '')`. -/
def stripRefsTags (ref : String) : String :=
  ⟨removeFirstL "refs/tags/".data ref.data⟩

/-- JS `a || b` for a possibly-undefined string `a` (`none` = undefined;
`some ""` is falsy and also falls through). -/
def jsOrO (a : Option String) (b : String) : String :=
  match a with
  | none => b
  | some s => if s = "" then b else s

/-- JS `a || b` for two strings. -/
def jsOrS (a b : String) : String :=
  if a = "" then b else a

/-! ## Data model: manifests and resolved metadata -/

/-- A `repository` entry in `package.json`: either a bare string or a
structured object whose `url` sub-field may itself be missing. -/
inductive RepoField
  | bare (s : String)
  | structured (url : Option String)
deriving DecidableEq

/-- An `author` entry in `package.json`: bare string or structured object
with an optional `name` sub-field. -/
inductive AuthorField
  | bare (s : String)
  | structured (name : Option String)
deriving DecidableEq

/-- A successfully parsed `package.json` document, restricted to the
fields the reader extracts. `none` is a property absent from the JSON;
`keywords = none` also covers a present non-array value. -/
structure Pkg where
  name : Option String := none
  version : Option String := none
  description : Option String := none
  homepage : Option String := none
  repository : Option RepoField := none
  keywords : Option (List String) := none
  author : Option AuthorField := none
  license : Option String := none
deriving DecidableEq

/-- Resolved project metadata as returned by the readers. -/
structure Metadata where
  name : Option String := none
  version : Option String := none
  description : Option String := none
  homepage : Option String := none
  repository : Option String := none
  keywords : List String := []
  author : Option String := none
  license : Option String := none
deriving DecidableEq

/-- The slice of the project directory the readers probe. For
`package.json` the JSON parse outcome is part of the model:
`none` = file absent, `some (.error e)` = file present but
`JSON.parse` fails with `e`, `some (.ok pkg)` = file present and parsed.
The TOML files are raw text (their readers never parse-fail). -/
structure ProjectDir where
  packageJson : Option (Except String Pkg) := none
  pyprojectToml : Option String := none
  cargoToml : Option String := none

/-! ## Manifest readers -/

/-- Field normalization performed by `readFromPackageJson` on a parsed
document: unwrap `repository.url` and `author.name`, default `keywords`
to `[]` when not an array. -/
def pkgToMetadata (pkg : Pkg) : Metadata :=
  { name := pkg.name
    version := pkg.version
    description := pkg.description
    homepage := pkg.homepage
    repository :=
      match pkg.repository with
      | none => none
      | some (RepoField.bare s) => some s
      | some (RepoField.structured url) => url
    keywords := match pkg.keywords with
      | some ks => ks
      | none => []
    author :=
      match pkg.author with
      | none => none
      | some (AuthorField.bare s) => some s
      | some (AuthorField.structured nm) => nm
    license := pkg.license }

/-- `readFromPackageJson`: `null` when the file is absent, a thrown
`Failed to parse package.json: …` error when it exists but is
malformed, the normalized metadata otherwise. -/
def readFromPackageJson (d : ProjectDir) : Except String (Option Metadata) :=
  match d.packageJson with
  | none => Except.ok none
  | some (Except.error e) => Except.error ("Failed to parse package.json: " ++ e)
  | some (Except.ok pkg) => Except.ok (some (pkgToMetadata pkg))

/-- The field extraction `readFromPyproject` performs on the raw TOML
text (line-oriented best effort, capitalized-key fallback for
homepage/repository). -/
def pyprojectMetadata (toml : String) : Metadata :=
  { name := extract "name" toml
    version := extract "version" toml
    description := extract "description" toml
    homepage := (extract "homepage" toml).orElse (fun _ => extract "\"Homepage\"" toml)
    repository := (extract "repository" toml).orElse (fun _ => extract "\"Repository\"" toml)
    keywords := extractList "keywords" toml
    author := none
    license := extract "license" toml }

/-- `readFromPyproject`: `null` when the file is absent, best-effort
extraction otherwise; never throws. -/
def readFromPyproject (d : ProjectDir) : Except String (Option Metadata) :=
  match d.pyprojectToml with
  | none => Except.ok none
  | some toml => Except.ok (some (pyprojectMetadata toml))

/-- Keyword extraction in `readFromCargo`:
`toml.match(/keywords\s*=\s*\[(.*?)\]/s)` then
`split(',').map(k => k.trim().replace(/"/g, '')).filter(Boolean)`. -/
def cargoKeywords (toml : String) : List String :=
  match scanFor "keywords".data matchBracketLazy toml.data with
  | none => []
  | some cap =>
    (((String.mk cap |> jsSplitComma).map (fun k => removeQuotes (jsTrim k))).filter
      (fun k => k ≠ ""))

/-- The field extraction `readFromCargo` performs on the raw TOML text
(no capitalized fallback). -/
def cargoMetadata (toml : String) : Metadata :=
  { name := extract "name" toml
    version := extract "version" toml
    description := extract "description" toml
    homepage := extract "homepage" toml
    repository := extract "repository" toml
    keywords := cargoKeywords toml
    author := none
    license := extract "license" toml }

/-- `readFromCargo`: `null` when the file is absent, best-effort
extraction otherwise; never throws. -/
def readFromCargo (d : ProjectDir) : Except String (Option Metadata) :=
  match d.cargoToml with
  | none => Except.ok none
  | some toml => Except.ok (some (cargoMetadata toml))

/-- Failure modes of `readProjectMetadata`: a propagated parse failure,
or no recognized manifest at all. -/
inductive ReadErr
  | parseError (msg : String)
  | manifestNotFound
deriving DecidableEq

/-- `readProjectMetadata`: `readFromPackageJson(p) || readFromPyproject(p)
|| readFromCargo(p)`, throwing when every reader returns `null`. -/
def readProjectMetadata (d : ProjectDir) : Except ReadErr Metadata :=
  match readFromPackageJson d with
  | Except.error e => Except.error (ReadErr.parseError e)
  | Except.ok (some m) => Except.ok m
  | Except.ok none =>
    match readFromPyproject d with
    | Except.error e => Except.error (ReadErr.parseError e)
    | Except.ok (some m) => Except.ok m
    | Except.ok none =>
      match readFromCargo d with
      | Except.error e => Except.error (ReadErr.parseError e)
      | Except.ok (some m) => Except.ok m
      | Except.ok none => Except.error ReadErr.manifestNotFound

/-! ## Submission payload and validation -/

/-- The nested `metadata` record of the submission payload. -/
structure PayloadMeta where
  author : String := ""
  release_tag : String := ""
  submitted_at : String := ""
  github_action : Bool := true
  github_run_id : Nat := 0
  github_sha : String := ""
deriving DecidableEq

/-- The submission payload. String fields are `Option String` so that a
truly absent property (`undefined` on a hand-built JS object) stays
distinguishable from an empty string; the builder always produces
`some`. -/
structure Payload where
  name : Option String := none
  version : Option String := none
  description : Option String := none
  long_description : Option String := none
  category : Option String := none
  homepage : Option String := none
  repository : Option String := none
  license : Option String := none
  changelog : Option String := none
  pricing : Option String := none
  min_near_version : Option String := none
  tags : List String := []
  metadata : PayloadMeta := {}
deriving DecidableEq

/-- The `REQUIRED_FIELDS` constant. -/
def REQUIRED_FIELDS : List String :=
  ["name", "version", "description", "category", "repository"]

/-- The `OPTIONAL_FIELDS` constant. -/
def OPTIONAL_FIELDS : List String :=
  ["homepage", "long_description", "changelog", "license"]

/-- Dynamic property access `payload[field]` for the fields validation
touches. -/
def getPayloadField (p : Payload) (field : String) : Option String :=
  if field = "name" then p.name
  else if field = "version" then p.version
  else if field = "description" then p.description
  else if field = "long_description" then p.long_description
  else if field = "category" then p.category
  else if field = "homepage" then p.homepage
  else if field = "repository" then p.repository
  else if field = "license" then p.license
  else if field = "changelog" then p.changelog
  else none

/-- The test `!payload[field] || String(payload[field]).trim() === ''`. -/
def fieldMissing : Option String → Bool
  | none => true
  | some s => s == "" || jsTrim s == ""

/-- The error message pushed for a missing required field. -/
def reqErrMsg (field : String) : String :=
  "Required field \"" ++ field ++ "\" is missing or empty. Provide it via the \"" ++
    field ++ "\" action input or add it to your package manifest."

/-- The warning pushed for an unset optional field. -/
def optWarnMsg (field : String) : String :=
  "Optional field \"" ++ field ++ "\" is not set — consider adding it for a better listing."

/-- The advisory warning for a non-semver-looking version. -/
def verWarnMsg (v : String) : String :=
  "Version \"" ++ v ++ "\" doesn\x27t look like semver (x.y.z). " ++
    "The marketplace prefers semantic versioning."

/-- The test `/^\d+\.\d+/.test(v)`: one or more digits, a dot, and at
least one further digit, anchored at the start. -/
def semverLike (v : String) : Bool :=
  let d1 := v.data.takeWhile Char.isDigit
  if d1 = [] then false
  else
    match v.data.drop d1.length with
    | '.' :: c :: _ => c.isDigit
    | _ => false

/-- The field loop shared by the two validation passes: for each field
in order, push the message when the field is missing or blank. -/
def collectMsgs (get : String → Option String) (msg : String → String) :
    List String → List String
  | [] => []
  | f :: fs => (if fieldMissing (get f) then [msg f] else []) ++ collectMsgs get msg fs

/-- The `errors` array built by `validatePayload`. -/
def requiredErrors (p : Payload) : List String :=
  collectMsgs (getPayloadField p) reqErrMsg REQUIRED_FIELDS

/-- The optional-field warnings built by `validatePayload`, before the
version heuristic. -/
def optionalWarnings (p : Payload) : List String :=
  collectMsgs (getPayloadField p) optWarnMsg OPTIONAL_FIELDS

/-- The version-format heuristic:
`if (payload.version && !/^\d+\.\d+/.test(payload.version)) warnings.push(…)`. -/
def versionWarning (p : Payload) : List String :=
  match p.version with
  | none => []
  | some v => if v = "" then [] else if semverLike v then [] else [verWarnMsg v]

/-- The `{ errors, warnings }` record `validatePayload` returns. -/
structure ValidationResult where
  errors : List String
  warnings : List String
deriving DecidableEq

/-- `validatePayload`. -/
def validatePayload (p : Payload) : ValidationResult :=
  ⟨requiredErrors p, optionalWarnings p ++ versionWarning p⟩

/-! ## HTTP response handling (`httpsRequest`) -/

/-- The result of `JSON.parse` on a response body as far as the error
path inspects it: a non-null object with optional `message`/`error`
string properties and its `JSON.stringify` rendering, or anything else
(a parse failure, or a parsed non-object), for which the code falls back
to the raw body. -/
inductive ParsedBody
  | objBody (message : Option String) (error : Option String) (stringified : String)
  | rawBody
deriving DecidableEq

/-- `typeof parsed === 'object' ? (parsed.message || parsed.error ||
JSON.stringify(parsed)) : body.slice(0, 200)`. -/
def respDetail (body : String) (parsed : ParsedBody) : String :=
  match parsed with
  | ParsedBody.objBody m e strf => jsOrO m (jsOrO e strf)
  | ParsedBody.rawBody => ⟨body.data.take 200⟩

/-- The message of the error rejected for a non-2xx response. -/
def notOkMsg (url : String) (statusCode : Nat) (body : String) (parsed : ParsedBody) : String :=
  "Marketplace API returned HTTP " ++ toString statusCode ++ ": " ++
    respDetail body parsed ++ ". URL: " ++ url

/-- The response dispatch inside `httpsRequest`: resolve on 2xx, reject
with `notOkMsg` otherwise. -/
def handleResponse (url : String) (statusCode : Nat) (body : String) (parsed : ParsedBody) :
    Except String (Nat × ParsedBody) :=
  if 200 ≤ statusCode ∧ statusCode < 300 then Except.ok (statusCode, parsed)
  else Except.error (notOkMsg url statusCode body parsed)

/-! ## Registry client -/

/-- Outcome of the HTTPS lookup request as `findExistingListing`
observes it: a rejected promise (network error or non-2xx), or a
response whose body may or may not carry a `data` array of listing ids. -/
inductive LookupOutcome
  | err (msg : String)
  | ok (dataIds : Option (List String))
deriving DecidableEq

/-- `findExistingListing`: the id of the first element of
`response.body.data` when the shape fits, `null` on any error or
unexpected shape. -/
def findExistingListing (outcome : LookupOutcome) : Option String :=
  match outcome with
  | LookupOutcome.err _ => none
  | LookupOutcome.ok none => none
  | LookupOutcome.ok (some []) => none
  | LookupOutcome.ok (some (i :: _)) => some i

/-- `submitToMarketplace` method selection: `listingId ? 'PUT' : 'POST'`. -/
def submitMethod (listingId : Option String) : String :=
  match listingId with
  | some _ => "PUT"
  | none => "POST"

/-- `submitToMarketplace` target selection. -/
def submitUrl (marketplaceApi : String) (listingId : Option String) : String :=
  match listingId with
  | some i => marketplaceApi ++ "/listings/" ++ i
  | none => marketplaceApi ++ "/listings"

/-- The submit decision computed by `run`: request method, URL, and the
`status` output reported on success. -/
structure SubmitPlan where
  method : String
  url : String
  status : String
  listingId : Option String
deriving DecidableEq

/-- The submit phase of `run`: look up only when `update-existing` is
enabled, then update when an id was found and create otherwise. -/
def runSubmitPhase (updateExisting : Bool) (outcome : LookupOutcome)
    (marketplaceApi : String) : SubmitPlan :=
  let listingId := if updateExisting then findExistingListing outcome else none
  { method := submitMethod listingId
    url := submitUrl marketplaceApi listingId
    status := match listingId with
      | some _ => "updated"
      | none => "created"
    listingId := listingId }

/-! ## Payload builder (`run`, payload construction) -/

/-- The action inputs `run` reads via `core.getInput`; an unset input is
the empty string, exactly as `getInput` reports it. -/
structure Inputs where
  name : String := ""
  version : String := ""
  description : String := ""
  longDescription : String := ""
  category : String := ""
  homepage : String := ""
  repository : String := ""
  license : String := ""
  changelog : String := ""
  pricing : String := ""
  minNearVersion : String := ""
  tags : String := ""
deriving DecidableEq

/-- The slice of `github.context` the builder consumes. -/
structure GhContext where
  owner : String := ""
  repo : String := ""
  ref : String := ""
  actor : String := ""
  runId : Nat := 0
  sha : String := ""
deriving DecidableEq

/-- The payload object literal in `run`, including the subsequent
`payload.tags` assignment; `now` is `new Date().toISOString()`. -/
def buildPayload (inp : Inputs) (md : Metadata) (ctx : GhContext) (now : String) : Payload :=
  let repoUrl := "https://github.com/" ++ ctx.owner ++ "/" ++ ctx.repo
  { name := some (jsOrS inp.name (jsOrO md.name ""))
    version := some (jsOrS inp.version (jsOrO md.version (stripRefsTags ctx.ref)))
    description := some (jsOrS inp.description (jsOrO md.description ""))
    long_description := some inp.longDescription
    category := some (jsOrS inp.category "development")
    homepage := some (jsOrS inp.homepage (jsOrO md.homepage ""))
    repository := some (jsOrS inp.repository (jsOrO md.repository repoUrl))
    license := some (jsOrS inp.license (jsOrO md.license "MIT"))
    changelog := some inp.changelog
    pricing := some (jsOrS inp.pricing "free")
    min_near_version := some inp.minNearVersion
    tags :=
      if inp.tags = "" then md.keywords
      else ((jsSplitComma inp.tags).map jsTrim).filter (fun t => t ≠ "")
    metadata :=
      { author := jsOrO md.author ctx.actor
        release_tag := ctx.ref
        submitted_at := now
        github_action := true
        github_run_id := ctx.runId
        github_sha := ctx.sha } }

/-- Number of occurrences of a string in a list (used to state the
"exactly one message per field" properties). -/
def countOcc (x : String) : List String → Nat
  | [] => 0
  | y :: ys => (if y = x then 1 else 0) + countOcc x ys

/-! ## General lemmas -/

theorem strData_append (a b : String) : (a ++ b).data = a.data ++ b.data := by
  cases a
  cases b
  rfl

theorem reqErrMsg_head (f : String) : (reqErrMsg f).data.head? = some 'R' := by
  unfold reqErrMsg
  simp only [strData_append]
  rfl

theorem optWarnMsg_head (f : String) : (optWarnMsg f).data.head? = some 'O' := by
  unfold optWarnMsg
  simp only [strData_append]
  rfl

theorem verWarnMsg_head (v : String) : (verWarnMsg v).data.head? = some 'V' := by
  unfold verWarnMsg
  simp only [strData_append]
  rfl

theorem optWarnMsg_ne_verWarnMsg (f v : String) : optWarnMsg f ≠ verWarnMsg v := by
  intro h
  have h2 : (optWarnMsg f).data.head? = (verWarnMsg v).data.head? := by rw [h]
  rw [optWarnMsg_head, verWarnMsg_head] at h2
  exact absurd h2 (by decide)

theorem reqErrMsg_ne_verWarnMsg (f v : String) : reqErrMsg f ≠ verWarnMsg v := by
  intro h
  have h2 : (reqErrMsg f).data.head? = (verWarnMsg v).data.head? := by rw [h]
  rw [reqErrMsg_head, verWarnMsg_head] at h2
  exact absurd h2 (by decide)

theorem countOcc_append (x : String) (l1 l2 : List String) :
    countOcc x (l1 ++ l2) = countOcc x l1 + countOcc x l2 := by
  induction l1 with
  | nil => simp [countOcc]
  | cons y ys ih => simp [countOcc, ih, Nat.add_assoc]

theorem mem_collectMsgs {get : String → Option String} {msg : String → String} {x : String} :
    ∀ {fs : List String}, x ∈ collectMsgs get msg fs → ∃ f, f ∈ fs ∧ x = msg f := by
  intro fs
  induction fs with
  | nil => intro h; cases h
  | cons a as ih =>
    intro h
    rcases List.mem_append.mp h with h1 | h2
    · by_cases hc : fieldMissing (get a)
      · simp [hc] at h1
        exact ⟨a, List.mem_cons_self a as, h1⟩
      · simp [hc] at h1
    · obtain ⟨f, hf, hx⟩ := ih h2
      exact ⟨f, List.mem_cons_of_mem a hf, hx⟩

theorem collectMsgs_countOcc_zero (get : String → Option String) (msg : String → String)
    (x : String) :
    ∀ fs : List String, (∀ a ∈ fs, msg a ≠ x) →
      countOcc x (collectMsgs get msg fs) = 0 := by
  intro fs
  induction fs with
  | nil => intro _; rfl
  | cons a as ih =>
    intro h
    show countOcc x ((if fieldMissing (get a) then [msg a] else []) ++ _) = 0
    rw [countOcc_append, ih (fun b hb => h b (List.mem_cons_of_mem a hb))]
    by_cases hc : fieldMissing (get a)
    · simp [hc, countOcc, h a (List.mem_cons_self a as)]
    · simp [hc, countOcc]

theorem collectMsgs_countOcc (get : String → Option String) (msg : String → String) :
    ∀ fs : List String, fs.Nodup →
      (∀ a ∈ fs, ∀ b ∈ fs, msg a = msg b → a = b) →
      ∀ f ∈ fs, countOcc (msg f) (collectMsgs get msg fs) =
        if fieldMissing (get f) then 1 else 0 := by
  intro fs
  induction fs with
  | nil => intro _ _ f hf; cases hf
  | cons a as ih =>
    intro hnd hinj f hf
    have hand := List.nodup_cons.mp hnd
    show countOcc (msg f) ((if fieldMissing (get a) then [msg a] else []) ++ _) = _
    rw [countOcc_append]
    rcases List.mem_cons.mp hf with rfl | hfs
    · have hz : countOcc (msg f) (collectMsgs get msg as) = 0 := by
        refine collectMsgs_countOcc_zero get msg (msg f) as (fun b hb heq => ?_)
        have : b = f := hinj b (List.mem_cons_of_mem f hb) f (List.mem_cons_self f as) heq
        exact hand.1 (this ▸ hb)
      rw [hz]
      by_cases hc : fieldMissing (get f)
      · simp [hc, countOcc]
      · simp [hc, countOcc]
    · have hne : msg a ≠ msg f := by
        intro heq
        have : a = f := hinj a (List.mem_cons_self a as) f (List.mem_cons_of_mem a hfs) heq
        exact hand.1 (this ▸ hfs)
      rw [ih hand.2
        (fun x hx y hy => hinj x (List.mem_cons_of_mem a hx) y (List.mem_cons_of_mem a hy))
        f hfs]
      by_cases hc : fieldMissing (get a)
      · simp [hc, countOcc, hne]
      · simp [hc, countOcc]

theorem startsWithL_self_append (x z : List Char) : startsWithL x (x ++ z) = true := by
  induction x with
  | nil => rfl
  | cons a as ih => simp [startsWithL, ih]

theorem occursIn_of_startsWith {x h : List Char} (hs : startsWithL x h = true) :
    occursIn x h = true := by
  cases h with
  | nil => simpa [occursIn] using hs
  | cons c rest => simp [occursIn, hs]

theorem occursIn_self_append (x z : List Char) : occursIn x (x ++ z) = true :=
  occursIn_of_startsWith (startsWithL_self_append x z)

theorem occursIn_append_right (x : List Char) (h1 : List Char) {h2 : List Char}
    (h : occursIn x h2 = true) : occursIn x (h1 ++ h2) = true := by
  induction h1 with
  | nil => simpa using h
  | cons c rest ih => simp [occursIn, ih]

/-! ## Claims -/

/-- C1: metadata resolution tries the readers in the fixed order
package.json, then pyproject.toml, then Cargo.toml; it returns the result
of the first reader whose file is present (including a propagated parse
failure) without consulting any later reader, and fails with
ManifestNotFoundError when no reader detects its file — in particular
for an empty project directory. -/
theorem claim_c1_resolution_order :
    (∀ (d : ProjectDir) (p : Pkg), d.packageJson = some (Except.ok p) →
        readProjectMetadata d = Except.ok (pkgToMetadata p)) ∧
    (∀ (d : ProjectDir) (e : String), d.packageJson = some (Except.error e) →
        readProjectMetadata d =
          Except.error (ReadErr.parseError ("Failed to parse package.json: " ++ e))) ∧
    (∀ (pj : Option (Except String Pkg)) (py cg py' cg' : Option String), pj ≠ none →
        readProjectMetadata ⟨pj, py, cg⟩ = readProjectMetadata ⟨pj, py', cg'⟩) ∧
    (∀ (d : ProjectDir) (t : String), d.packageJson = none → d.pyprojectToml = some t →
        readProjectMetadata d = Except.ok (pyprojectMetadata t)) ∧
    (∀ (py : String) (cg cg' : Option String),
        readProjectMetadata ⟨none, some py, cg⟩ = readProjectMetadata ⟨none, some py, cg'⟩) ∧
    (∀ (d : ProjectDir) (t : String), d.packageJson = none → d.pyprojectToml = none →
        d.cargoToml = some t → readProjectMetadata d = Except.ok (cargoMetadata t)) ∧
    (readProjectMetadata ⟨none, none, none⟩ = Except.error ReadErr.manifestNotFound) := by
  refine ⟨?_, ?_, ?_, ?_, ?_, ?_, rfl⟩
  · intro d p h
    unfold readProjectMetadata readFromPackageJson
    rw [h]
  · intro d e h
    unfold readProjectMetadata readFromPackageJson
    rw [h]
  · intro pj py cg py' cg' h
    cases pj with
    | none => exact absurd rfl h
    | some c =>
      cases c with
      | error e => rfl
      | ok p => rfl
  · intro d t h1 h2
    unfold readProjectMetadata readFromPackageJson readFromPyproject
    rw [h1, h2]
  · intro py cg cg'
    rfl
  · intro d t h1 h2 h3
    unfold readProjectMetadata readFromPackageJson readFromPyproject readFromCargo
    rw [h1, h2, h3]

/-- Witness for C1 at concrete inputs. -/
theorem claim_c1_witness :
    readProjectMetadata ⟨some (Except.ok {}), some "name = \"py\"", none⟩ =
      Except.ok (pkgToMetadata {}) :=
  claim_c1_resolution_order.1 ⟨some (Except.ok {}), some "name = \"py\"", none⟩ {} rfl

/-- C6: the package.json reader returns absent exactly when the file is
missing and raises a (distinguishable) parse error exactly when the file
exists but is unparseable; the pyproject.toml and Cargo.toml readers
never raise. -/
theorem claim_c6_reader_error_discipline :
    (∀ d : ProjectDir, readFromPackageJson d = Except.ok none ↔ d.packageJson = none) ∧
    (∀ d : ProjectDir, (∃ e, readFromPackageJson d = Except.error e) ↔
        (∃ msg, d.packageJson = some (Except.error msg))) ∧
    (∀ (d : ProjectDir) (e : String), readFromPyproject d ≠ Except.error e) ∧
    (∀ (d : ProjectDir) (e : String), readFromCargo d ≠ Except.error e) := by
  refine ⟨?_, ?_, ?_, ?_⟩
  · intro d
    unfold readFromPackageJson
    cases h : d.packageJson with
    | none => simp
    | some c => cases c <;> simp
  · intro d
    unfold readFromPackageJson
    cases h : d.packageJson with
    | none => simp
    | some c => cases c <;> simp
  · intro d e
    unfold readFromPyproject
    cases d.pyprojectToml <;> simp
  · intro d e
    unfold readFromCargo
    cases d.cargoToml <;> simp

/-- Witness for C6 at a concrete input. -/
theorem claim_c6_witness :
    readFromPackageJson ⟨none, none, none⟩ = Except.ok none :=
  (claim_c6_reader_error_discipline.1 ⟨none, none, none⟩).mpr rfl

/-- C10: key matching in the TOML extractors is not anchored to a whole
key token: a pyproject.toml (resp. Cargo.toml) whose only assignment is
`package_name = "x"` — with no standalone `name` key — yields
`name = "x"` from the reader. -/
theorem claim_c10_unanchored_key_match :
    readFromPyproject ⟨none, some "package_name = \"x\"", none⟩ =
      Except.ok (some (pyprojectMetadata "package_name = \"x\"")) ∧
    (pyprojectMetadata "package_name = \"x\"").name = some "x" ∧
    readFromCargo ⟨none, none, some "package_name = \"x\""⟩ =
      Except.ok (some (cargoMetadata "package_name = \"x\"")) ∧
    (cargoMetadata "package_name = \"x\"").name = some "x" := by
  refine ⟨rfl, by decide, rfl, by decide⟩

/-- C2: when the lookup found an id, the submission is a PUT to
`{base}/listings/{id}` with status output `"updated"`; when no id was
found it is a POST to `{base}/listings` with status `"created"`; and with
update-existing disabled the lookup is ignored entirely and the flow
always creates. -/
theorem claim_c2_create_or_update :
    (∀ (o : LookupOutcome) (api i : String), findExistingListing o = some i →
        runSubmitPhase true o api =
          ⟨"PUT", api ++ "/listings/" ++ i, "updated", some i⟩) ∧
    (∀ (o : LookupOutcome) (api : String), findExistingListing o = none →
        runSubmitPhase true o api = ⟨"POST", api ++ "/listings", "created", none⟩) ∧
    (∀ (o o' : LookupOutcome) (api : String),
        runSubmitPhase false o api = runSubmitPhase false o' api) ∧
    (∀ (o : LookupOutcome) (api : String),
        runSubmitPhase false o api = ⟨"POST", api ++ "/listings", "created", none⟩) := by
  refine ⟨?_, ?_, ?_, ?_⟩
  · intro o api i h
    simp [runSubmitPhase, h, submitMethod, submitUrl]
  · intro o api h
    simp [runSubmitPhase, h, submitMethod, submitUrl]
  · intro o o' api
    rfl
  · intro o api
    rfl

/-- Witness for C2 at concrete inputs. -/
theorem claim_c2_witness :
    runSubmitPhase true (LookupOutcome.ok (some ["abc"])) "https://market.near.ai/v1" =
      ⟨"PUT", "https://market.near.ai/v1/listings/abc", "updated", some "abc"⟩ :=
  claim_c2_create_or_update.1 (LookupOutcome.ok (some ["abc"]))
    "https://market.near.ai/v1" "abc" rfl

/-- C3: any error during the lookup (network failure or a response whose
body lacks the expected `data` array) is treated as "no existing
listing", never propagated, and the submit phase then proceeds as a
create. -/
theorem claim_c3_lookup_fail_open :
    (∀ msg : String, findExistingListing (LookupOutcome.err msg) = none) ∧
    (findExistingListing (LookupOutcome.ok none) = none) ∧
    (findExistingListing (LookupOutcome.ok (some [])) = none) ∧
    (∀ (msg api : String),
        runSubmitPhase true (LookupOutcome.err msg) api =
          ⟨"POST", api ++ "/listings", "created", none⟩) := by
  refine ⟨fun _ => rfl, rfl, rfl, fun _ _ => rfl⟩

/-- Witness for C3 at a concrete input. -/
theorem claim_c3_witness :
    findExistingListing (LookupOutcome.err "ECONNRESET") = none :=
  claim_c3_lookup_fail_open.1 "ECONNRESET"

/-- C5 counterexample: two metadata records, one whose description is
present-but-empty and one where it is truly absent, are distinguishable
as data yet produce identical payloads — the merge does not distinguish
"not present" from "present but empty". -/
theorem claim_c5_counterexample :
    (({ description := some "" } : Metadata) ≠ ({ } : Metadata)) ∧
    buildPayload { } { description := some "" } { owner := "o", repo := "r" } "t" =
      buildPayload { } { } { owner := "o", repo := "r" } "t" := by
  exact ⟨by decide, rfl⟩

/-- C5 amended: absence of a manifest field is representable as distinct
from present-but-empty, but the payload builder's merge treats the two
identically — a present-but-empty field falls through to the computed
default exactly as an absent one does, for every manifest-sourced string
field. -/
theorem claim_c5_amended_merge_conflates_empty :
    (({ description := some "" } : Metadata) ≠ ({ } : Metadata)) ∧
    (∀ (inp : Inputs) (md : Metadata) (ctx : GhContext) (now : String),
        buildPayload inp { md with name := some "" } ctx now =
          buildPayload inp { md with name := none } ctx now) ∧
    (∀ (inp : Inputs) (md : Metadata) (ctx : GhContext) (now : String),
        buildPayload inp { md with version := some "" } ctx now =
          buildPayload inp { md with version := none } ctx now) ∧
    (∀ (inp : Inputs) (md : Metadata) (ctx : GhContext) (now : String),
        buildPayload inp { md with description := some "" } ctx now =
          buildPayload inp { md with description := none } ctx now) ∧
    (∀ (inp : Inputs) (md : Metadata) (ctx : GhContext) (now : String),
        buildPayload inp { md with homepage := some "" } ctx now =
          buildPayload inp { md with homepage := none } ctx now) ∧
    (∀ (inp : Inputs) (md : Metadata) (ctx : GhContext) (now : String),
        buildPayload inp { md with repository := some "" } ctx now =
          buildPayload inp { md with repository := none } ctx now) ∧
    (∀ (inp : Inputs) (md : Metadata) (ctx : GhContext) (now : String),
        buildPayload inp { md with license := some "" } ctx now =
          buildPayload inp { md with license := none } ctx now) ∧
    (∀ (inp : Inputs) (md : Metadata) (ctx : GhContext) (now : String),
        buildPayload inp { md with author := some "" } ctx now =
          buildPayload inp { md with author := none } ctx now) :=
  ⟨by decide, fun _ _ _ _ => rfl, fun _ _ _ _ => rfl, fun _ _ _ _ => rfl,
    fun _ _ _ _ => rfl, fun _ _ _ _ => rfl, fun _ _ _ _ => rfl, fun _ _ _ _ => rfl⟩

/-- Witness for the amended C5 at concrete inputs. -/
theorem claim_c5_witness :
    buildPayload { } { name := some "" } { } "t" =
      buildPayload { } { name := none } { } "t" :=
  claim_c5_amended_merge_conflates_empty.2.1 { } { } { } "t"

/-- C7: with a non-empty comma-separated tags override, the payload tags
are the override split on commas, entries trimmed, empties dropped,
order preserved, independently of manifest keywords; `"a, b ,c"` yields
`["a","b","c"]`; with no override the tags are the manifest keywords
verbatim. -/
theorem claim_c7_tags :
    (∀ (inp : Inputs) (md : Metadata) (ctx : GhContext) (now : String), inp.tags ≠ "" →
        (buildPayload inp md ctx now).tags =
          ((jsSplitComma inp.tags).map jsTrim).filter (fun t => t ≠ "")) ∧
    (∀ (md : Metadata) (ctx : GhContext) (now : String),
        (buildPayload { tags := "a, b ,c" } md ctx now).tags = ["a", "b", "c"]) ∧
    (∀ (inp : Inputs) (md : Metadata) (ctx : GhContext) (now : String), inp.tags = "" →
        (buildPayload inp md ctx now).tags = md.keywords) := by
  refine ⟨?_, ?_, ?_⟩
  · intro inp md ctx now h
    simp [buildPayload, h]
  · intro md ctx now
    simp [buildPayload]
    decide
  · intro inp md ctx now h
    simp [buildPayload, h]

/-- Witness for C7 at concrete inputs. -/
theorem claim_c7_witness :
    (buildPayload { tags := "x , ,y" } { keywords := ["k"] } { } "t").tags =
      ((jsSplitComma "x , ,y").map jsTrim).filter (fun t => t ≠ "") :=
  claim_c7_tags.1 { tags := "x , ,y" } { keywords := ["k"] } { } "t" (by decide)

theorem versionWarning_eq (p : Payload) (v : String) (hv : p.version = some v) :
    versionWarning p =
      if v = "" then [] else if semverLike v then [] else [verWarnMsg v] := by
  unfold versionWarning
  rw [hv]

/-- C4: validation produces exactly one error per missing-or-blank
required field, whose message names the field and suggests both the
action-input override and the manifest; exactly one warning per
missing-or-blank optional field; removing a single required field from an
otherwise-complete payload yields exactly that field's error and no
warnings; and both lists are returned even when empty. -/
theorem claim_c4_validation :
    (∀ (p : Payload) (f : String), f ∈ REQUIRED_FIELDS →
        countOcc (reqErrMsg f) (validatePayload p).errors =
          if fieldMissing (getPayloadField p f) then 1 else 0) ∧
    (∀ (p : Payload) (f : String), f ∈ OPTIONAL_FIELDS →
        countOcc (optWarnMsg f) (validatePayload p).warnings =
          if fieldMissing (getPayloadField p f) then 1 else 0) ∧
    (∀ f ∈ REQUIRED_FIELDS,
        containsSubStr f (reqErrMsg f) = true ∧
        containsSubStr "action input" (reqErrMsg f) = true ∧
        containsSubStr "manifest" (reqErrMsg f) = true) ∧
    (validatePayload
        { name := some "tool", version := some "1.2.3", description := some "desc",
          category := some "dev", repository := some "repo", homepage := some "home",
          long_description := some "long", changelog := some "ch",
          license := some "MIT" } = ⟨[], []⟩) ∧
    (validatePayload
        { name := none, version := some "1.2.3", description := some "desc",
          category := some "dev", repository := some "repo", homepage := some "home",
          long_description := some "long", changelog := some "ch",
          license := some "MIT" } = ⟨[reqErrMsg "name"], []⟩) ∧
    (validatePayload
        { name := some "tool", version := none, description := some "desc",
          category := some "dev", repository := some "repo", homepage := some "home",
          long_description := some "long", changelog := some "ch",
          license := some "MIT" } = ⟨[reqErrMsg "version"], []⟩) ∧
    (validatePayload
        { name := some "tool", version := some "1.2.3", description := none,
          category := some "dev", repository := some "repo", homepage := some "home",
          long_description := some "long", changelog := some "ch",
          license := some "MIT" } = ⟨[reqErrMsg "description"], []⟩) ∧
    (validatePayload
        { name := some "tool", version := some "1.2.3", description := some "desc",
          category := none, repository := some "repo", homepage := some "home",
          long_description := some "long", changelog := some "ch",
          license := some "MIT" } = ⟨[reqErrMsg "category"], []⟩) ∧
    (validatePayload
        { name := some "tool", version := some "1.2.3", description := some "desc",
          category := some "dev", repository := none, homepage := some "home",
          long_description := some "long", changelog := some "ch",
          license := some "MIT" } = ⟨[reqErrMsg "repository"], []⟩) := by
  refine ⟨?_, ?_, by decide, by decide, by decide, by decide, by decide, by decide, by decide⟩
  · intro p f hf
    show countOcc (reqErrMsg f)
      (collectMsgs (getPayloadField p) reqErrMsg REQUIRED_FIELDS) = _
    exact collectMsgs_countOcc (getPayloadField p) reqErrMsg REQUIRED_FIELDS
      (by decide) (by decide) f hf
  · intro p f hf
    show countOcc (optWarnMsg f)
      (collectMsgs (getPayloadField p) optWarnMsg OPTIONAL_FIELDS ++ versionWarning p) = _
    rw [countOcc_append]
    have h1 := collectMsgs_countOcc (getPayloadField p) optWarnMsg OPTIONAL_FIELDS
      (by decide) (by decide) f hf
    have h2 : countOcc (optWarnMsg f) (versionWarning p) = 0 := by
      unfold versionWarning
      cases hpv : p.version with
      | none => rfl
      | some v =>
        by_cases hv : v = ""
        · simp [hv, countOcc]
        · by_cases hs : semverLike v
          · simp [hv, hs, countOcc]
          · simp [hv, hs, countOcc, Ne.symm (optWarnMsg_ne_verWarnMsg f v)]
    rw [h1, h2, Nat.add_zero]

/-- Witness for C4 at a concrete input. -/
theorem claim_c4_witness :
    countOcc (reqErrMsg "name") (validatePayload { }).errors =
      if fieldMissing (getPayloadField { } "name") then 1 else 0 :=
  claim_c4_validation.1 { } "name" (by decide)

/-- C9: for a payload with a (non-empty) version, the semver-format
warning is emitted exactly when the version does not match a leading
`digits.digits` pattern; the warning never appears among the errors, so
it never blocks submission; `"2.1.0-beta.1"` and `"1.2"` do not warn,
`"latest"` does. -/
theorem claim_c9_semver_warning :
    (∀ (p : Payload) (v : String), p.version = some v → v ≠ "" →
        (verWarnMsg v ∈ (validatePayload p).warnings ↔ semverLike v = false)) ∧
    (∀ (p : Payload) (v : String), verWarnMsg v ∉ (validatePayload p).errors) ∧
    (semverLike "2.1.0-beta.1" = true ∧ semverLike "1.2" = true ∧
      semverLike "latest" = false) ∧
    (verWarnMsg "latest" ∈ (validatePayload { version := some "latest" }).warnings) := by
  refine ⟨?_, ?_, by decide, by decide⟩
  · intro p v hv hne
    show verWarnMsg v ∈
      collectMsgs (getPayloadField p) optWarnMsg OPTIONAL_FIELDS ++ versionWarning p ↔ _
    constructor
    · intro hmem
      rcases List.mem_append.mp hmem with h1 | h2
      · obtain ⟨f, _, heq⟩ := mem_collectMsgs h1
        exact absurd heq.symm (optWarnMsg_ne_verWarnMsg f v)
      · rw [versionWarning_eq p v hv, if_neg hne] at h2
        by_cases hs : semverLike v
        · simp [hs] at h2
        · exact Bool.eq_false_iff.mpr hs
    · intro hs
      refine List.mem_append_right _ ?_
      rw [versionWarning_eq p v hv, if_neg hne, hs]
      simp
  · intro p v hmem
    have hmem' : verWarnMsg v ∈
        collectMsgs (getPayloadField p) reqErrMsg REQUIRED_FIELDS := hmem
    obtain ⟨f, _, heq⟩ := mem_collectMsgs hmem'
    exact absurd heq.symm (reqErrMsg_ne_verWarnMsg f v)

/-- Witness for C9 at a concrete input. -/
theorem claim_c9_witness :
    verWarnMsg "beta" ∈ (validatePayload { version := some "beta" }).warnings :=
  (claim_c9_semver_warning.1 { version := some "beta" } "beta" rfl (by decide)).mpr
    (by decide)

/-- C8: a non-2xx response is rejected with an error message embedding
the numeric status code and, for a structured error body, the detail
from its message (or error) field — falling back to a truncated raw
snippet; a 409 with message "duplicate" yields an error containing
"409" and "duplicate". -/
theorem claim_c8_http_error :
    (∀ (url : String) (s : Nat) (body : String) (parsed : ParsedBody),
        ¬(200 ≤ s ∧ s < 300) →
        handleResponse url s body parsed = Except.error (notOkMsg url s body parsed) ∧
        containsSubStr (toString s) (notOkMsg url s body parsed) = true ∧
        (∀ (m : String) (e : Option String) (strf : String),
            parsed = ParsedBody.objBody (some m) e strf → m ≠ "" →
            containsSubStr m (notOkMsg url s body parsed) = true) ∧
        (parsed = ParsedBody.rawBody →
            containsSubStr (String.mk (body.data.take 200))
              (notOkMsg url s body parsed) = true)) ∧
    (handleResponse "https://market.near.ai/v1/listings" 409 "dup-body"
        (ParsedBody.objBody (some "duplicate") none "dup-json") =
      Except.error (notOkMsg "https://market.near.ai/v1/listings" 409 "dup-body"
        (ParsedBody.objBody (some "duplicate") none "dup-json"))) ∧
    (containsSubStr "409" (notOkMsg "https://market.near.ai/v1/listings" 409 "dup-body"
        (ParsedBody.objBody (some "duplicate") none "dup-json")) = true) ∧
    (containsSubStr "duplicate"
        (notOkMsg "https://market.near.ai/v1/listings" 409 "dup-body"
          (ParsedBody.objBody (some "duplicate") none "dup-json")) = true) := by
  refine ⟨?_, rfl, by decide, by decide⟩
  intro url s body parsed hns
  refine ⟨by simp [handleResponse, hns], ?_, ?_, ?_⟩
  · unfold containsSubStr notOkMsg
    simp only [strData_append, List.append_assoc]
    exact occursIn_append_right _ _ (occursIn_self_append _ _)
  · intro m e strf hp hm
    subst hp
    have hd : respDetail body (ParsedBody.objBody (some m) e strf) = m := by
      simp [respDetail, jsOrO, hm]
    unfold containsSubStr notOkMsg
    rw [hd]
    simp only [strData_append, List.append_assoc]
    exact occursIn_append_right _ _ (occursIn_append_right _ _
      (occursIn_append_right _ _ (occursIn_self_append _ _)))
  · intro hp
    subst hp
    have hd : respDetail body ParsedBody.rawBody = String.mk (body.data.take 200) := rfl
    unfold containsSubStr notOkMsg
    rw [hd]
    simp only [strData_append, List.append_assoc]
    exact occursIn_append_right _ _ (occursIn_append_right _ _
      (occursIn_append_right _ _ (occursIn_self_append _ _)))

/-- Witness for C8 at a concrete input. -/
theorem claim_c8_witness :
    handleResponse "https://u" 404 "not found" ParsedBody.rawBody =
      Except.error (notOkMsg "https://u" 404 "not found" ParsedBody.rawBody) :=
  (claim_c8_http_error.1 "https://u" 404 "not found" ParsedBody.rawBody (by decide)).1

end NearAction
